import Mathlib

/-!
Verification development for the document-processing and retrieval pipeline of
the AIKnowledgeBase repository (FastAPI + RAG over PDF documents).

The Python services are shallowly embedded as executable Lean definitions:

* `app/services/chunking_service.py` — text cleaning, sentence/paragraph
  splitting, the sliding-window chunker with sentence overlap, the
  paragraph-based chunker, and chunk persistence (`create_document_chunks`).
* `app/services/pdf_service.py` — `process_document` / `get_document_text`
  (the PDF library call itself is abstracted as an `Except`-valued outcome).
* `app/services/embedding_service.py` — `process_document_embeddings`
  (batch loop, two-phase progress reporting, per-chunk vector storage) and
  the post-processing of `search_similar_chunks` (threshold filter, sort,
  cap).  Provider calls are abstracted as environment-supplied outcomes.
* `app/services/document_processor.py` — the pipeline orchestrator
  (`process_document_full_pipeline`, `cleanup_document_data`,
  `reprocess_document`).
* `app/services/rag_service.py` — `answer_question` (retrieval, canned
  no-context answer, message persistence); prompt assembly and the session
  table are outside the formalised claims, and the generation-model call is
  an environment-supplied outcome.

Python strings are modelled as `List Char` (ASCII subset: the regexes in the
source use `\s` and `\d`, modelled by `pyWs` and `Char.isDigit`).  Machine
floats appear only as similarity scores, modelled as `Rat` (the claims about
them are purely order-theoretic).  Database sessions are modelled by explicit
state records; each commit of `processing_status` is appended to a trace so
that "status advanced to X" is statable.  Page attribution
(`extract_page_info`) and the chat-session table are not needed by any claim
and are omitted from the embedding.
-/

namespace AIKB

/-! ### Python string primitives -/

/-- Python regex `\s` / `str.split()` / `str.strip()` whitespace (ASCII). -/
def pyWs (c : Char) : Bool :=
  c = ' ' || c = '\t' || c = '\n' || c = '\r' || c = '\x0b' || c = '\x0c'

/-- Worker for `collapseWs`; the flag records whether the previous character
was whitespace (i.e. we are inside a run already replaced by one space). -/
def collapseGo : Bool → List Char → List Char
  | _, [] => []
  | prevWs, c :: cs =>
    if pyWs c then
      if prevWs then collapseGo true cs else ' ' :: collapseGo true cs
    else c :: collapseGo false cs

/-- `re.sub(r'\s+', ' ', text)`: collapse every maximal whitespace run to a
single space (first step of `ChunkingService.clean_text`). -/
def collapseWs (l : List Char) : List Char := collapseGo false l

/-- Strip a literal pattern from the front of a list, returning the rest. -/
def dropLeading : List Char → List Char → Option (List Char)
  | [], l => some l
  | _ :: _, [] => none
  | p :: ps, c :: cs => if c = p then dropLeading ps cs else none

def markerHead : List Char := "--- Page ".data

def markerTail : List Char := " ---".data

/-- Try to match the regex `\n--- Page \d+ ---\n` at the head of the input;
on success return the remainder after the final newline of the match. -/
def tryMarker : List Char → Option (List Char)
  | '\n' :: rest =>
    match dropLeading markerHead rest with
    | none => none
    | some r1 =>
      let ds := r1.takeWhile Char.isDigit
      let r2 := r1.dropWhile Char.isDigit
      if ds = [] then none
      else
        match dropLeading markerTail r2 with
        | none => none
        | some r3 =>
          match r3 with
          | '\n' :: r4 => some r4
          | _ => none
  | _ => none

/-- Worker for `removePageMarkers` with fuel (`re.sub` replaces leftmost
non-overlapping matches and resumes after each match). -/
def removePageMarkersGo : Nat → List Char → List Char
  | 0, l => l
  | _ + 1, [] => []
  | fuel + 1, c :: cs =>
    match tryMarker (c :: cs) with
    | some rest => '\n' :: removePageMarkersGo fuel rest
    | none => c :: removePageMarkersGo fuel cs

/-- `re.sub(r'\n--- Page \d+ ---\n', '\n', text)` (second step of
`ChunkingService.clean_text`). -/
def removePageMarkers (l : List Char) : List Char := removePageMarkersGo l.length l

/-- Drop trailing whitespace (the right half of Python `str.strip()`). -/
def dropTrail : List Char → List Char
  | [] => []
  | c :: cs =>
    match dropTrail cs with
    | [] => if pyWs c then [] else [c]
    | r => c :: r

/-- Python `str.strip()`. -/
def pyStrip (l : List Char) : List Char := dropTrail (l.dropWhile pyWs)

/-- `ChunkingService.clean_text`: collapse whitespace, then remove page
markers, then strip.  (Note the source collapses whitespace *before* the
marker-removal regex runs.) -/
def clean_text (l : List Char) : List Char :=
  pyStrip (removePageMarkers (collapseWs l))

/-- Does `l` occur as a contiguous run inside `text`?  (Python `in`.) -/
def leadsWith : List Char → List Char → Bool
  | [], _ => true
  | _ :: _, [] => false
  | p :: ps, c :: cs => p = c && leadsWith ps cs

def containsSeq (pat : List Char) : List Char → Bool
  | [] => leadsWith pat []
  | c :: cs => leadsWith pat (c :: cs) || containsSeq pat cs

/-! ### Sentence and word splitting -/

def sentEndChar (c : Char) : Bool := c = '.' || c = '!' || c = '?'

/-- Worker for `re.split(r'(?<=[.!?])\s+', text)`.  `acc` is the current
piece (reversed); the flag says we are inside a separator run. -/
def ssGo : List Char → Bool → List Char → List (List Char)
  | acc, _, [] => [acc.reverse]
  | acc, true, c :: cs =>
    if pyWs c then ssGo acc true cs else ssGo [c] false cs
  | acc, false, c :: cs =>
    if pyWs c && (match acc with | p :: _ => sentEndChar p | [] => false) then
      acc.reverse :: ssGo [] true cs
    else
      ssGo (c :: acc) false cs

def splitSentencePieces (l : List Char) : List (List Char) := ssGo [] false l

/-- `ChunkingService.split_text_by_sentences`: regex split, then
`[s.strip() for s in sentences if s.strip()]`. -/
def split_text_by_sentences (l : List Char) : List (List Char) :=
  ((splitSentencePieces l).map pyStrip).filter (· ≠ [])

/-- Worker for Python `str.split()` (no separator): split on whitespace runs,
discarding empty pieces. -/
def swGo : List Char → List Char → List (List Char)
  | acc, [] => if acc = [] then [] else [acc.reverse]
  | acc, c :: cs =>
    if pyWs c then
      if acc = [] then swGo [] cs else acc.reverse :: swGo [] cs
    else swGo (c :: acc) cs

/-- Python `str.split()` with no argument. -/
def splitWs (l : List Char) : List (List Char) := swGo [] l

/-- Python `" ".join(parts)`. -/
def joinSp : List (List Char) → List Char
  | [] => []
  | [s] => s
  | s :: ss => s ++ ' ' :: joinSp ss

/-- Worker for Python `text.split('\n\n')`. -/
def nnGo : List Char → List Char → List (List Char)
  | acc, '\n' :: '\n' :: cs => acc.reverse :: nnGo [] cs
  | acc, c :: cs => nnGo (c :: acc) cs
  | acc, [] => [acc.reverse]

/-- Python `text.split('\n\n')` (paragraph boundaries). -/
def splitNN (l : List Char) : List (List Char) := nnGo [] l

/-- Python `text.count('\n\n')` (non-overlapping occurrences). -/
def countNN : List Char → Nat
  | '\n' :: '\n' :: cs => countNN cs + 1
  | _ :: cs => countNN cs
  | [] => 0

/-! ### Chunk records and the sliding-window chunker -/

/-- One chunk dict as produced by the two chunking strategies.  `extra_count`
is `sentence_count` (sliding window) or `paragraph_count` (paragraph). -/
structure PyChunk where
  index : Nat
  content : List Char
  character_count : Nat
  word_count : Nat
  extra_count : Nat
deriving DecidableEq, Repr

/-- Total length in characters of a list of sentences (spaces between them
are *not* counted, exactly as the overlap loop in the source counts). -/
def sumLen (l : List (List Char)) : Nat := (l.map List.length).sum

/-- Worker for the overlap walk: iterate over the reversed sentence list,
prepending sentences while the accumulated character count fits the budget,
stopping at the first sentence that would exceed it. -/
def walkAux (budget : Nat) : List (List Char) → Nat → List (List Char) → List (List Char)
  | [], _, acc => acc
  | s :: rest, chars, acc =>
    if chars + s.length ≤ budget then walkAux budget rest (chars + s.length) (s :: acc)
    else acc

/-- The overlap-seeding loop of `create_chunks_sliding_window` (walk the
just-emitted sentences backward, `insert(0, ...)` while within budget). -/
def walkBack (sents : List (List Char)) (budget : Nat) : List (List Char) :=
  walkAux budget sents.reverse 0 []

/-- Build the chunk dict emitted by the sliding-window strategy: content is
`current_chunk.strip()`, `character_count` is `len(current_chunk)` (before
the strip), `word_count` is `len(current_chunk.split())`. -/
def mkSWChunk (idx : Nat) (cur : List Char) (sentCount : Nat) : PyChunk :=
  ⟨idx, pyStrip cur, cur.length, (splitWs cur).length, sentCount⟩

/-- Loop state of `create_chunks_sliding_window`. -/
structure SWState where
  chunks : List PyChunk
  current : List Char
  currentSentences : List (List Char)
  chunkIndex : Nat
deriving DecidableEq, Repr

/-- One iteration of the sentence loop in `create_chunks_sliding_window`. -/
def slidingStep (size overlap : Nat) (st : SWState) (s : List Char) : SWState :=
  let test := if st.current = [] then s else st.current ++ ' ' :: s
  if test.length ≤ size then
    { st with current := test, currentSentences := st.currentSentences ++ [s] }
  else
    let emitted :=
      if st.current = [] then (st.chunks, st.chunkIndex)
      else (st.chunks ++ [mkSWChunk st.chunkIndex st.current st.currentSentences.length],
            st.chunkIndex + 1)
    let seeded :=
      if 0 < overlap ∧ 1 < st.currentSentences.length then
        let ov := walkBack st.currentSentences overlap
        (joinSp ov, ov)
      else ([], [])
    let cur' := if seeded.1 = [] then s else seeded.1 ++ ' ' :: s
    ⟨emitted.1, cur', seeded.2 ++ [s], emitted.2⟩

/-- `ChunkingService.create_chunks_sliding_window`. -/
def create_chunks_sliding_window (size overlap : Nat) (text : List Char) : List PyChunk :=
  let sentences := split_text_by_sentences text
  if sentences = [] then []
  else
    let st := sentences.foldl (slidingStep size overlap) ⟨[], [], [], 0⟩
    st.chunks ++
      (if st.current = [] then []
       else [mkSWChunk st.chunkIndex st.current st.currentSentences.length])

/-! ### The paragraph-based chunker -/

/-- Build the chunk dict emitted by the paragraph strategy
(`paragraph_count` is `current_chunk.count('\n\n') + 1`). -/
def mkParaChunk (idx : Nat) (cur : List Char) : PyChunk :=
  ⟨idx, pyStrip cur, cur.length, (splitWs cur).length, countNN cur + 1⟩

/-- Loop state of `create_chunks_paragraph_based`. -/
structure ParaState where
  chunks : List PyChunk
  current : List Char
  chunkIndex : Nat
deriving DecidableEq, Repr

/-- One iteration of the paragraph loop in `create_chunks_paragraph_based`. -/
def paraStep (size : Nat) (st : ParaState) (p : List Char) : ParaState :=
  let test := if st.current = [] then p else st.current ++ '\n' :: '\n' :: p
  if test.length ≤ size then { st with current := test }
  else
    if st.current = [] then { st with current := p }
    else
      ⟨st.chunks ++ [mkParaChunk st.chunkIndex st.current], p, st.chunkIndex + 1⟩

/-- `[p.strip() for p in text.split('\n\n') if p.strip()]`. -/
def paragraphsOf (text : List Char) : List (List Char) :=
  ((splitNN text).map pyStrip).filter (· ≠ [])

/-- `ChunkingService.create_chunks_paragraph_based`. -/
def create_chunks_paragraph_based (size : Nat) (text : List Char) : List PyChunk :=
  let paragraphs := paragraphsOf text
  let st := paragraphs.foldl (paraStep size) ⟨[], [], 0⟩
  st.chunks ++
    (if st.current = [] then [] else [mkParaChunk st.chunkIndex st.current])

/-! ### Relational store, vector store and job records

`document_chunks` rows, vector-index entries and the document status column
are modelled explicitly.  Every commit of `processing_status` is appended to
`trace`, so claims about which statuses a run advanced through are statable.
Row ids stand in for the `uuid4` primary keys (`add_document` returns the
chunk id, which `process_document_embeddings` stores as `embedding_id`). -/

/-- One `document_chunks` row (page attribution is outside the claims). -/
structure Row where
  id : Nat
  docId : Nat
  chunkIndex : Nat
  content : List Char
  embeddingId : Option Nat
deriving DecidableEq, Repr

/-- One ChromaDB collection entry, keyed by chunk id. -/
structure VecEntry where
  docId : Nat
  chunkId : Nat
deriving DecidableEq, Repr

/-- Database/vector-store state threaded through the pipeline. -/
structure St where
  docStatus : String
  trace : List String
  rows : List Row
  vec : List VecEntry
  nextId : Nat
deriving DecidableEq, Repr

/-- `document.processing_status = s; db.commit()`. -/
def setStatus (s : String) (st : St) : St :=
  { st with docStatus := s, trace := st.trace ++ [s] }

/-- A `processing_jobs` row for one stage run (timestamps omitted);
`progressTrace` records every committed `progress_percentage` value. -/
structure JobRec where
  status : String
  errorMessage : Option String
  progressTrace : List Nat
deriving DecidableEq, Repr

/-! ### Embedding service (`process_document_embeddings`) -/

/-- Outcomes of the external calls made by the embedding stage:
`batchErr i` is the outcome of `generate_embeddings_batch` for the batch
starting at chunk offset `i` (`none` = success), `storeErr i` the outcome of
`vector_service.add_document` for the `i`-th chunk. -/
structure EmbedEnv where
  batchErr : Nat → Option String
  storeErr : Nat → Option String

/-- `.order_by(DocumentChunk.chunk_index)` (a stable sort, like the ORM). -/
def sortRows (rows : List Row) : List Row :=
  List.insertionSort (fun a b => a.chunkIndex ≤ b.chunkIndex) rows

/-- `range(0, len(chunk_texts), batch_size)` with `batch_size = 10`. -/
def batchStarts (n : Nat) : List Nat := (List.range ((n + 9) / 10)).map (· * 10)

/-- Progress committed after the batch starting at offset `i`:
`min(100, int((i + batch_size) / total_chunks * 50))`. -/
def genProgress (total i : Nat) : Nat := min 100 ((i + 10) * 50 / total)

/-- Progress committed after storing the `i`-th chunk:
`50 + int((i + 1) / total_chunks * 50)`. -/
def storeProgress (total i : Nat) : Nat := 50 + (i + 1) * 50 / total

/-- The batch-embedding loop: returns the first failure (if any) and the
list of progress values committed before it. -/
def genPhase (eenv : EmbedEnv) (total : Nat) : List Nat → Option String × List Nat
  | [] => (none, [])
  | i :: rest =>
    match eenv.batchErr i with
    | some e => (some ("Failed to generate batch embeddings: " ++ e), [])
    | none =>
      let r := genPhase eenv total rest
      (r.1, genProgress total i :: r.2)

/-- The per-chunk storage loop: adds a vector entry, sets the chunk's
`embedding_id` (to the id returned by `add_document`, i.e. the chunk id) and
commits progress, stopping at the first `add_document` failure.  Commits made
before a failure are retained (each iteration ends in `db.commit()`). -/
def storePhase (eenv : EmbedEnv) (total : Nat) :
    List Row → Nat → St → Option String × List Nat × St
  | [], _, st => (none, [], st)
  | r :: rest, i, st =>
    match eenv.storeErr i with
    | some e => (some ("Failed to add document to vector database: " ++ e), [], st)
    | none =>
      let st' : St :=
        { st with
          vec := st.vec ++ [⟨r.docId, r.id⟩],
          rows := st.rows.map fun x =>
            if x.id = r.id then { x with embeddingId := some r.id } else x }
      let rec' := storePhase eenv total rest (i + 1) st'
      (rec'.1, storeProgress total i :: rec'.2.1, rec'.2.2)

/-- `EmbeddingService.process_document_embeddings`: returns the success flag,
the `create_embeddings` job record, and the updated store. -/
def process_document_embeddings (eenv : EmbedEnv) (docId : Nat) (st : St) :
    Bool × JobRec × St :=
  let chunks := sortRows (st.rows.filter (·.docId = docId))
  if chunks = [] then
    (false, ⟨"failed", some "No chunks found for document", []⟩,
     setStatus "embedding_failed" st)
  else
    let total := chunks.length
    let gen := genPhase eenv total (batchStarts total)
    match gen.1 with
    | some e => (false, ⟨"failed", some e, gen.2⟩, setStatus "embedding_failed" st)
    | none =>
      let store := storePhase eenv total chunks 0 st
      match store.1 with
      | some e =>
        (false, ⟨"failed", some e, gen.2 ++ store.2.1⟩,
         setStatus "embedding_failed" store.2.2)
      | none =>
        (true, ⟨"completed", none, gen.2 ++ store.2.1 ++ [100]⟩,
         setStatus "completed" store.2.2)

/-! ### PDF service and the pipeline orchestrator -/

/-- External outcomes consumed by one pipeline run: the result of
`extract_text` (text, page count, metadata — deterministic, so the re-fetch
in `get_document_text` sees the same value), the chunking method argument,
and the embedding-stage outcomes. -/
structure OrchEnv where
  extract : Except String (List Char × Nat × List (String × String))
  method : String
  embed : EmbedEnv

/-- `PDFService.process_document`: sets `extracting`, runs extraction, and on
success marks the *document* `completed` (sic — this is the extraction
stage's own success path), on failure `failed`. -/
def pdf_process_document (env : OrchEnv) (st : St) : Bool × St :=
  let st := setStatus "extracting" st
  match env.extract with
  | .ok _ => (true, setStatus "completed" st)
  | .error _ => (false, setStatus "failed" st)

/-- `PDFService.get_document_text`: `None` unless the document's status is
`completed`; otherwise re-extracts (returning `None` if extraction fails). -/
def get_document_text (env : OrchEnv) (st : St) : Option (List Char) :=
  if st.docStatus = "completed" then
    match env.extract with
    | .ok t => some t.1
    | .error _ => none
  else none

/-- The method dispatch inside `create_document_chunks` (`ValueError` for an
unknown method name). -/
def chunksDataFor (size overlap : Nat) (method : String) (cleaned : List Char) :
    Except String (List PyChunk) :=
  if method = "sliding_window" then .ok (create_chunks_sliding_window size overlap cleaned)
  else if method = "paragraph" then .ok (create_chunks_paragraph_based size cleaned)
  else .error ("Unknown chunking method: " ++ method)

/-- Insert one `DocumentChunk` row per chunk dict, with fresh ids. -/
def rowsFor (docId : Nat) : Nat → List PyChunk → List Row
  | _, [] => []
  | nid, c :: cs =>
    ⟨nid, docId, c.index, c.content, none⟩ :: rowsFor docId (nid + 1) cs

/-- `ChunkingService.create_document_chunks`: clean, chunk, insert rows; on
success mark the document `chunking_completed`, on any exception mark it
`chunking_failed` and re-raise (modelled by the `Except` result). -/
def create_document_chunks (size overlap : Nat) (method : String) (docId : Nat)
    (text : List Char) (st : St) : Except String (List PyChunk) × St :=
  let cleaned := clean_text text
  match chunksDataFor size overlap method cleaned with
  | .ok cd =>
    (.ok cd,
     setStatus "chunking_completed"
       { st with rows := st.rows ++ rowsFor docId st.nextId cd,
                 nextId := st.nextId + cd.length })
  | .error e => (.error e, setStatus "chunking_failed" st)

/-- The result dict of `process_document_full_pipeline`. -/
structure PipeResults where
  text_extraction : Bool
  chunking : Bool
  embedding_generation : Bool
  total_chunks : Nat
  errors : List String
deriving DecidableEq, Repr

/-- `DocumentProcessor.process_document_full_pipeline`.  A total function:
stage exceptions surface only in `errors` (chunking re-raises are caught by
the orchestrator's `except`, which appends `"Document processing failed: e"`
and sets status `failed`; the other two stages catch internally and return
`False`).  The Python truthiness test `if not text_content` treats both
`None` and the empty string as missing text. -/
def process_document_full_pipeline (env : OrchEnv) (size overlap docId : Nat)
    (st : St) : PipeResults × St :=
  let r0 : PipeResults := ⟨false, false, false, 0, []⟩
  let st := setStatus "extracting" st
  let pdf := pdf_process_document env st
  if pdf.1 = false then
    ({ r0 with errors := ["Text extraction failed"] }, pdf.2)
  else
    match get_document_text env pdf.2 with
    | none =>
      ({ r0 with text_extraction := true, errors := ["No text content extracted"] }, pdf.2)
    | some t =>
      if t = [] then
        ({ r0 with text_extraction := true, errors := ["No text content extracted"] }, pdf.2)
      else
        let st := setStatus "chunking" pdf.2
        match create_document_chunks size overlap env.method docId t st with
        | (.error e, st) =>
          ({ r0 with text_extraction := true,
                     errors := ["Document processing failed: " ++ e] },
           setStatus "failed" st)
        | (.ok cd, st) =>
          if cd = [] then
            ({ r0 with text_extraction := true, errors := ["No chunks created"] }, st)
          else
            let st := setStatus "embedding" st
            let emb := process_document_embeddings env.embed docId st
            if emb.1 = false then
              ({ r0 with text_extraction := true, chunking := true,
                         total_chunks := cd.length,
                         errors := ["Embedding generation failed"] }, emb.2.2)
            else
              ({ r0 with text_extraction := true, chunking := true,
                         embedding_generation := true, total_chunks := cd.length },
               setStatus "completed" emb.2.2)

/-- `DocumentProcessor.cleanup_document_data`: deletes the document's
vector-index entries.  The relational chunk rows are *not* touched — the
source comments that "the foreign key cascade should automatically delete
chunks", but no such cascade fires (the document row is not deleted). -/
def cleanup_document_data (docId : Nat) (st : St) : St :=
  { st with vec := st.vec.filter (·.docId ≠ docId) }

/-- `DocumentProcessor.reprocess_document`: cleanup, reset status to
`pending`, rerun the full pipeline. -/
def reprocess_document (env : OrchEnv) (size overlap docId : Nat) (st : St) :
    PipeResults × St :=
  let st := cleanup_document_data docId st
  let st := setStatus "pending" st
  process_document_full_pipeline env size overlap docId st

/-- The `*_failed` family of `processing_status` values an orchestrator run
can end in. -/
def failedFamily (s : String) : Prop :=
  s = "failed" ∨ s = "chunking_failed" ∨ s = "embedding_failed"

/-! ### RAG service (`search_similar_chunks` and `answer_question`) -/

/-- A `documents` row (only the fields the answering engine reads). -/
structure DocRec where
  id : Nat
  filename : String
deriving DecidableEq, Repr

/-- One raw hit from `vector_service.search` (similarity is the
distance-derived score `1 / (1 + distance)`). -/
structure SearchHit where
  chunkId : Nat
  similarity : Rat
deriving DecidableEq, Repr

/-- One element of the `results` list built by `search_similar_chunks`. -/
structure Retrieved where
  chunk : Row
  document : Option DocRec
  similarity : Rat
deriving DecidableEq, Repr

def lookupRow (rows : List Row) (i : Nat) : Option Row := rows.find? (·.id = i)

def lookupDoc (docs : List DocRec) (i : Nat) : Option DocRec := docs.find? (·.id = i)

/-- The filtering loop of `search_similar_chunks`: keep hits with
`similarity >= similarity_threshold` whose chunk row exists, resolving the
parent document alongside. -/
def collectHits (rows : List Row) (docs : List DocRec) (threshold : Rat) :
    List SearchHit → List Retrieved
  | [] => []
  | h :: hs =>
    if threshold ≤ h.similarity then
      match lookupRow rows h.chunkId with
      | some c =>
        ⟨c, lookupDoc docs c.docId, h.similarity⟩ :: collectHits rows docs threshold hs
      | none => collectHits rows docs threshold hs
    else collectHits rows docs threshold hs

/-- `results.sort(key=lambda x: x['similarity'], reverse=True)` (stable). -/
def sortDescBySim (l : List Retrieved) : List Retrieved :=
  List.insertionSort (fun a b => b.similarity ≤ a.similarity) l

/-- `EmbeddingService.search_similar_chunks` after the vector query: filter
by threshold, sort by similarity descending, cap to `limit`.  (`hits` is the
output of `vector_service.search`, which the service over-fetches with
`limit * 2`; the query-embedding call is outside the modelled claims.) -/
def search_similar_chunks (rows : List Row) (docs : List DocRec)
    (hits : List SearchHit) (limit : Nat) (threshold : Rat) : List Retrieved :=
  (sortDescBySim (collectHits rows docs threshold hits)).take limit

/-- `response.usage` of a generation call. -/
structure TokenUsage where
  prompt_tokens : Nat
  completion_tokens : Nat
  total_tokens : Nat
deriving DecidableEq, Repr

/-- One persisted `ChatMessage` (session and timestamps omitted). -/
structure Msg where
  message_type : String
  content : String
  sourceChunks : List Nat
  token_usage : Option TokenUsage
  model_used : Option String
  response_time_ms : Nat
deriving DecidableEq, Repr

/-- One element of the `sources` list returned by `answer_question`. -/
structure SourceItem where
  document_id : Nat
  document_name : String
  chunk_id : Nat
  similarity : Rat
  content_preview : List Char
deriving DecidableEq, Repr

/-- External outcomes consumed by `answer_question`: the raw vector hits for
the question embedding, and the generation-model outcome. -/
structure RagEnv where
  hits : List SearchHit
  gen : Except String (String × TokenUsage × Nat)
deriving Repr

/-- The result dict of `answer_question` (session/message ids omitted);
`relevant_chunks_found` is the length of the retrieved list. -/
structure RagResult where
  answer : String
  sources : List SourceItem
  token_usage : Option TokenUsage
  response_time_ms : Nat
  relevant_chunks_found : Nat
deriving DecidableEq, Repr

/-- The similarity threshold `0.6` that `answer_question` passes to
`search_similar_chunks` (written as the reduced rational `3/5`, in structure
form so that it evaluates; `ragSimilarityThreshold_eq` relates it to
`3 / 5`). -/
def ragSimilarityThreshold : Rat := ⟨3, 5, by decide, by decide⟩

/-- The canned no-context answer of `answer_question`. -/
def cannedAnswer : String :=
  "I couldn\x27t find relevant information in your uploaded documents to answer this question. Please make sure you have uploaded documents that contain information about your query."

/-- `chunk.content[:200] + "..." if len(...) > 200 else chunk.content`. -/
def contentPreview (content : List Char) : List Char :=
  if 200 < content.length then content.take 200 ++ "...".data else content

/-- Build the `sources` entries; accessing `document.original_filename` on a
missing parent document raises (propagating out of `answer_question`). -/
def mkSources : List Retrieved → Except String (List SourceItem)
  | [] => .ok []
  | r :: rs =>
    match r.document with
    | none => .error "NoneType has no attribute original_filename"
    | some d =>
      match mkSources rs with
      | .error e => .error e
      | .ok s =>
        .ok (⟨d.id, d.filename, r.chunk.id, r.similarity, contentPreview r.chunk.content⟩ :: s)

/-- `RAGService.answer_question` (session resolution and prompt text are
outside the modelled claims; the final `Nat` counts generation-model calls).
The missing-context branch answers from the canned text with no model call;
the main branch resolves sources, calls the model, and persists a user plus
an assistant message.  Failures re-raise wrapped as `RAG pipeline failed`
after rollback (no messages persisted). -/
def answer_question (rows : List Row) (docs : List DocRec) (env : RagEnv)
    (question : String) (defaultModel : String) (msgs : List Msg) :
    Except String (RagResult × List Msg × Nat) :=
  let relevant := search_similar_chunks rows docs env.hits 5 ragSimilarityThreshold
  if relevant = [] then
    let userMsg : Msg := ⟨"user", question, [], none, none, 0⟩
    let asstMsg : Msg := ⟨"assistant", cannedAnswer, [], none, none, 0⟩
    .ok (⟨cannedAnswer, [], none, 0, 0⟩, msgs ++ [userMsg, asstMsg], 0)
  else
    match mkSources relevant with
    | .error e => .error ("RAG pipeline failed: " ++ e)
    | .ok sources =>
      match env.gen with
      | .error e => .error ("RAG pipeline failed: Failed to generate answer: " ++ e)
      | .ok g =>
        let userMsg : Msg := ⟨"user", question, [], none, none, 0⟩
        let asstMsg : Msg :=
          ⟨"assistant", g.1, relevant.map (·.chunk.id), some g.2.1, some defaultModel, g.2.2⟩
        .ok (⟨g.1, sources, some g.2.1, g.2.2, relevant.length⟩,
             msgs ++ [userMsg, asstMsg], 1)

/-! ### Invariant predicates -/

/-- The first character (if any) is not whitespace. -/
def okHead : List Char → Bool
  | [] => true
  | c :: _ => !pyWs c

/-- The last character (if any) is not whitespace. -/
def okLast : List Char → Bool
  | [] => true
  | [c] => !pyWs c
  | _ :: c :: cs => okLast (c :: cs)

/-- Neither end of the string is whitespace (so `strip` is the identity). -/
def Edged (l : List Char) : Prop := okHead l = true ∧ okLast l = true

/-- The field coherence stated by claim C10: non-empty content, character
count equal to the content length, word count equal to the number of
whitespace-separated words of the content. -/
def GoodChunk (c : PyChunk) : Prop :=
  c.content ≠ [] ∧ c.character_count = c.content.length ∧
    c.word_count = (splitWs c.content).length

/-- Loop invariant of the sliding-window chunker. -/
def SWInv (st : SWState) : Prop :=
  Edged st.current ∧ (∀ s ∈ st.currentSentences, s ≠ [] ∧ Edged s) ∧
    ∀ c ∈ st.chunks, GoodChunk c

/-- Loop invariant of the paragraph chunker. -/
def ParaInv (st : ParaState) : Prop :=
  Edged st.current ∧ ∀ c ∈ st.chunks, GoodChunk c

/-- The embedding stage raises for document `docId` over chunk rows `rows`:
no chunks, a failing embedding batch, or a failing vector-store call on one
of the chunks actually stored. -/
def EmbedFailsAt (eenv : EmbedEnv) (docId : Nat) (rows : List Row) : Prop :=
  sortRows (rows.filter (·.docId = docId)) = [] ∨
  (∃ i ∈ batchStarts (sortRows (rows.filter (·.docId = docId))).length,
    eenv.batchErr i ≠ none) ∨
  (∃ j < (sortRows (rows.filter (·.docId = docId))).length, eenv.storeErr j ≠ none)

/-- Some stage of `process_document_full_pipeline` raises during the run
from state `st`: extraction fails, or the chunking stage raises (unknown
method), or the embedding stage raises over the rows present after the
chunking stage committed. -/
def StageRaises (env : OrchEnv) (size overlap docId : Nat) (st : St) : Prop :=
  (∃ e, env.extract = .error e) ∨
  (env.method ≠ "sliding_window" ∧ env.method ≠ "paragraph" ∧
    ∃ t pc md, env.extract = .ok (t, pc, md) ∧ t ≠ []) ∨
  (∃ t pc md cd, env.extract = .ok (t, pc, md) ∧ t ≠ [] ∧
    chunksDataFor size overlap env.method (clean_text t) = .ok cd ∧ cd ≠ [] ∧
    EmbedFailsAt env.embed docId (st.rows ++ rowsFor docId st.nextId cd))

/-- The source item `answer_question` builds from one retrieved chunk (the
`none` branch is unreachable when `mkSources` succeeds). -/
def sourceOf (r : Retrieved) : SourceItem :=
  match r.document with
  | some d => ⟨d.id, d.filename, r.chunk.id, r.similarity, contentPreview r.chunk.content⟩
  | none => ⟨0, "", r.chunk.id, r.similarity, contentPreview r.chunk.content⟩

/-! ### Concrete fixtures used by counterexamples and witnesses -/

/-- An embedding environment in which every provider call succeeds. -/
def okEmbedEnv : EmbedEnv := ⟨fun _ => none, fun _ => none⟩

/-- An embedding environment whose batch calls all fail. -/
def failingBatchEnv : EmbedEnv := ⟨fun _ => some "rate limit", fun _ => none⟩

/-- A fresh document store (status `pending`, no rows). -/
def pendingSt : St := ⟨"pending", [], [], [], 0⟩

/-- Extraction succeeds but yields the empty string (claim C1 scenario). -/
def emptyTextEnv : OrchEnv := ⟨.ok ([], 0, []), "sliding_window", okEmbedEnv⟩

/-- A normal single-sentence extraction outcome. -/
def smallTextEnv : OrchEnv := ⟨.ok ("abcd.".data, 1, []), "sliding_window", okEmbedEnv⟩

/-- An environment whose extraction raises. -/
def extractFailEnv : OrchEnv := ⟨.error "corrupt pdf", "sliding_window", okEmbedEnv⟩

/-- A store holding one already-processed chunk row for document 1 (the
state in which `reprocess_document` is called, claim C5 scenario). -/
def reproSt : St := ⟨"completed", [], [⟨0, 1, 0, "abcd.".data, some 0⟩], [⟨1, 0⟩], 1⟩

/-- A store with five chunk rows for document 1 awaiting embeddings (claim
C9 scenario: 5 chunks is a partial batch, batch size being 10). -/
def fiveChunkSt : St :=
  ⟨"embedding", [],
   [⟨0, 1, 0, "a.".data, none⟩, ⟨1, 1, 1, "b.".data, none⟩, ⟨2, 1, 2, "c.".data, none⟩,
    ⟨3, 1, 3, "d.".data, none⟩, ⟨4, 1, 4, "e.".data, none⟩], [], 5⟩

/-- A store with ten chunk rows for document 1 (one full embedding batch). -/
def tenChunkSt : St :=
  ⟨"embedding", [],
   [⟨0, 1, 0, "a.".data, none⟩, ⟨1, 1, 1, "b.".data, none⟩, ⟨2, 1, 2, "c.".data, none⟩,
    ⟨3, 1, 3, "d.".data, none⟩, ⟨4, 1, 4, "e.".data, none⟩, ⟨5, 1, 5, "f.".data, none⟩,
    ⟨6, 1, 6, "g.".data, none⟩, ⟨7, 1, 7, "h.".data, none⟩, ⟨8, 1, 8, "i.".data, none⟩,
    ⟨9, 1, 9, "j.".data, none⟩], [], 10⟩

/-- Chunk rows (with embeddings) used by the answering-engine witnesses. -/
def ragRows : List Row :=
  [⟨10, 1, 0, "alpha beta".data, some 10⟩, ⟨11, 1, 1, "gamma delta".data, some 11⟩,
   ⟨12, 1, 2, "epsilon".data, some 12⟩]

def ragDocs : List DocRec := [⟨1, "doc.pdf"⟩]

/-- Vector hits: one below the 0.6 threshold, two above (similarity scores
written as reduced-rational structure literals so they evaluate). -/
def ragEnvHit : RagEnv :=
  ⟨[⟨10, ⟨1, 2, by decide, by decide⟩⟩, ⟨11, ⟨9, 10, by decide, by decide⟩⟩,
    ⟨12, ⟨7, 10, by decide, by decide⟩⟩],
   .ok ("grounded answer", ⟨10, 5, 15⟩, 123)⟩

/-- Vector hits all below the 0.6 threshold (claim C8 scenario). -/
def ragEnvMiss : RagEnv :=
  ⟨[⟨10, ⟨1, 2, by decide, by decide⟩⟩, ⟨11, ⟨2, 5, by decide, by decide⟩⟩],
   .ok ("unused", ⟨10, 5, 15⟩, 123)⟩

/-- The value `answer_question` returns on `ragEnvHit` (used by the claim C7
witness). -/
def ragHitOut : RagResult × List Msg × Nat :=
  (⟨"grounded answer",
    [⟨1, "doc.pdf", 11, ⟨9, 10, by decide, by decide⟩, "gamma delta".data⟩,
     ⟨1, "doc.pdf", 12, ⟨7, 10, by decide, by decide⟩, "epsilon".data⟩],
    some ⟨10, 5, 15⟩, 123, 2⟩,
   [⟨"user", "q", [], none, none, 0⟩,
    ⟨"assistant", "grounded answer", [11, 12], some ⟨10, 5, 15⟩,
     some "gpt-4o-mini", 123⟩], 1)

/-! ## Lemmas about the string primitives -/

theorem okLast_cons (c : Char) {m : List Char} (h : m ≠ []) :
    okLast (c :: m) = okLast m := by
  cases m with
  | nil => exact absurd rfl h
  | cons d ds => rfl

theorem okHead_append {a : List Char} (b : List Char) (h : a ≠ []) :
    okHead (a ++ b) = okHead a := by
  cases a with
  | nil => exact absurd rfl h
  | cons c cs => rfl

theorem okLast_append (a : List Char) {b : List Char} (h : b ≠ []) :
    okLast (a ++ b) = okLast b := by
  induction a with
  | nil => rfl
  | cons c cs ih =>
    have hne : cs ++ b ≠ [] := by
      intro hx
      exact h (List.append_eq_nil.mp hx).2
    rw [List.cons_append, okLast_cons c hne, ih]

theorem dropWhile_okHead (l : List Char) : okHead (l.dropWhile pyWs) = true := by
  induction l with
  | nil => rfl
  | cons c cs ih =>
    rw [List.dropWhile_cons]
    split
    · exact ih
    · next h => simp [okHead, Bool.not_eq_true] at h ⊢; simp [h]

theorem dropTrail_okLast (l : List Char) : okLast (dropTrail l) = true := by
  induction l with
  | nil => rfl
  | cons c cs ih =>
    simp only [dropTrail]
    cases hd : dropTrail cs with
    | nil =>
      by_cases h : pyWs c
      · simp [okLast, h]
      · simp [okLast, h]
    | cons d ds =>
      simp only []
      rw [okLast_cons c (by simp)]
      exact hd ▸ ih

theorem dropTrail_okHead {l : List Char} (h : okHead l = true) :
    okHead (dropTrail l) = true := by
  cases l with
  | nil => rfl
  | cons c cs =>
    simp only [dropTrail]
    cases hd : dropTrail cs with
    | nil =>
      by_cases hw : pyWs c
      · simp [okHead, hw]
      · simp [okHead, hw]
    | cons d ds => simpa [okHead] using h

theorem pyStrip_edged (l : List Char) : Edged (pyStrip l) :=
  ⟨dropTrail_okHead (dropWhile_okHead l), dropTrail_okLast _⟩

theorem dropWhile_eq_self {l : List Char} (h : okHead l = true) :
    l.dropWhile pyWs = l := by
  cases l with
  | nil => rfl
  | cons c cs =>
    have hw : pyWs c = false := by
      simpa [okHead, Bool.not_eq_true'] using h
    simp [List.dropWhile_cons, hw]

theorem dropTrail_eq_self {l : List Char} (h : okLast l = true) : dropTrail l = l := by
  induction l with
  | nil => rfl
  | cons c cs ih =>
    cases cs with
    | nil =>
      have hw : pyWs c = false := by
        simpa [okLast, Bool.not_eq_true'] using h
      simp [dropTrail, hw]
    | cons d ds =>
      have h2 : okLast (d :: ds) = true := by
        rw [← okLast_cons c (by simp)]; exact h
      have h3 := ih h2
      show (match dropTrail (d :: ds) with
            | [] => if pyWs c = true then [] else [c]
            | r => c :: r) = c :: d :: ds
      rw [h3]

theorem strip_eq_self {l : List Char} (h : Edged l) : pyStrip l = l := by
  unfold pyStrip
  rw [dropWhile_eq_self h.1, dropTrail_eq_self h.2]

theorem edged_append_space {a b : List Char} (ha : Edged a) (hb : Edged b)
    (hna : a ≠ []) (hnb : b ≠ []) : Edged (a ++ ' ' :: b) := by
  refine ⟨?_, ?_⟩
  · rw [okHead_append _ hna]; exact ha.1
  · rw [okLast_append a (by simp), okLast_cons _ hnb]; exact hb.2

theorem edged_append_nn {a b : List Char} (ha : Edged a) (hb : Edged b)
    (hna : a ≠ []) (hnb : b ≠ []) : Edged (a ++ '\n' :: '\n' :: b) := by
  refine ⟨?_, ?_⟩
  · rw [okHead_append _ hna]; exact ha.1
  · rw [okLast_append a (by simp), okLast_cons _ (by simp), okLast_cons _ hnb]
    exact hb.2

theorem joinSp_ne_nil : ∀ (l : List (List Char)), l ≠ [] → (∀ s ∈ l, s ≠ []) →
    joinSp l ≠ []
  | [], h, _ => absurd rfl h
  | [s], _, hs => by simpa [joinSp] using hs s (by simp)
  | s :: t :: ts, _, hs => by
    have h1 : s ≠ [] := hs s (by simp)
    show s ++ ' ' :: joinSp (t :: ts) ≠ []
    intro hx
    exact h1 (List.append_eq_nil.mp hx).1

theorem joinSp_edged : ∀ (l : List (List Char)), (∀ s ∈ l, s ≠ [] ∧ Edged s) →
    Edged (joinSp l)
  | [], _ => ⟨rfl, rfl⟩
  | [s], h => (h s (by simp)).2
  | s :: t :: ts, h => by
    have hs := h s (by simp)
    have hrest : ∀ x ∈ t :: ts, x ≠ [] ∧ Edged x := fun x hx => h x (by simp [hx])
    have hj : Edged (joinSp (t :: ts)) := joinSp_edged (t :: ts) hrest
    have hne : joinSp (t :: ts) ≠ [] :=
      joinSp_ne_nil (t :: ts) (by simp) (fun x hx => (hrest x hx).1)
    show Edged (s ++ ' ' :: joinSp (t :: ts))
    exact edged_append_space hs.2 hj hs.1 hne

/-! ## Lemmas about the overlap walk -/

theorem walkAux_mem {budget : Nat} :
    ∀ {l : List (List Char)} {chars : Nat} {acc : List (List Char)} {x : List Char},
      x ∈ walkAux budget l chars acc → x ∈ l ∨ x ∈ acc := by
  intro l
  induction l with
  | nil => intro chars acc x hx; exact Or.inr hx
  | cons s rest ih =>
    intro chars acc x hx
    simp only [walkAux] at hx
    split at hx
    · rcases ih hx with h | h
      · exact Or.inl (by simp [h])
      · rcases List.mem_cons.mp h with h | h
        · exact Or.inl (by simp [h])
        · exact Or.inr h
    · exact Or.inr hx

theorem walkBack_mem {x : List Char} {sents : List (List Char)} {budget : Nat}
    (h : x ∈ walkBack sents budget) : x ∈ sents := by
  rcases walkAux_mem h with h | h
  · exact List.mem_reverse.mp h
  · cases h

theorem walkAux_sum {budget : Nat} :
    ∀ (l : List (List Char)) (chars : Nat) (acc : List (List Char)),
      sumLen acc = chars → chars ≤ budget →
      sumLen (walkAux budget l chars acc) ≤ budget
  | [], _, _, hacc, hle => by rw [walkAux]; exact hacc ▸ hle
  | s :: rest, chars, acc, hacc, hle => by
    rw [walkAux]
    split
    · next h =>
      refine walkAux_sum rest _ (s :: acc) ?_ h
      simp [sumLen] at hacc ⊢
      omega
    · exact hacc ▸ hle

theorem walkBack_sum (sents : List (List Char)) (budget : Nat) :
    sumLen (walkBack sents budget) ≤ budget :=
  walkAux_sum _ 0 [] rfl (Nat.zero_le _)

theorem walkAux_shape (budget : Nat) :
    ∀ (l : List (List Char)) (chars : Nat) (acc : List (List Char)),
      ∃ k, walkAux budget l chars acc = (l.take k).reverse ++ acc
  | [], _, acc => ⟨0, by simp [walkAux]⟩
  | s :: rest, chars, acc => by
    rw [walkAux]
    split
    · obtain ⟨k, hk⟩ := walkAux_shape budget rest (chars + s.length) (s :: acc)
      exact ⟨k + 1, by rw [hk]; simp⟩
    · exact ⟨0, by simp⟩

theorem walkBack_suffix (sents : List (List Char)) (budget : Nat) :
    ∃ t, t ++ walkBack sents budget = sents := by
  obtain ⟨k, hk⟩ := walkAux_shape budget sents.reverse 0 []
  refine ⟨(sents.reverse.drop k).reverse, ?_⟩
  rw [walkBack, hk, List.append_nil, ← List.reverse_append, List.take_append_drop,
    List.reverse_reverse]

/-! ## The chunker invariants -/

theorem mkSWChunk_good {cur : List Char} (idx n : Nat) (he : Edged cur)
    (hn : cur ≠ []) : GoodChunk (mkSWChunk idx cur n) := by
  unfold GoodChunk mkSWChunk
  rw [strip_eq_self he]
  exact ⟨hn, rfl, rfl⟩

theorem mkParaChunk_good {cur : List Char} (idx : Nat) (he : Edged cur)
    (hn : cur ≠ []) : GoodChunk (mkParaChunk idx cur) := by
  unfold GoodChunk mkParaChunk
  rw [strip_eq_self he]
  exact ⟨hn, rfl, rfl⟩

theorem slidingStep_inv {size overlap : Nat} {st : SWState} {s : List Char}
    (hs : s ≠ [] ∧ Edged s) (hinv : SWInv st) :
    SWInv (slidingStep size overlap st s) := by
  obtain ⟨hcur, hsents, hchunks⟩ := hinv
  have hifedge : ∀ cur0 : List Char, Edged cur0 →
      Edged (if cur0 = [] then s else cur0 ++ ' ' :: s) := by
    intro cur0 he0
    by_cases h : cur0 = []
    · simpa [h] using hs.2
    · rw [if_neg h]; exact edged_append_space he0 hs.2 h hs.1
  have hsentnew : ∀ L : List (List Char), (∀ x ∈ L, x ≠ [] ∧ Edged x) →
      ∀ x ∈ L ++ [s], x ≠ [] ∧ Edged x := by
    intro L hL x hx
    rcases List.mem_append.mp hx with h | h
    · exact hL x h
    · simp at h; subst h; exact hs
  have hwbgood : ∀ x ∈ walkBack st.currentSentences overlap, x ≠ [] ∧ Edged x :=
    fun x hx => hsents x (walkBack_mem hx)
  by_cases hc : st.current = []
  · simp only [slidingStep, if_pos hc]
    split
    · exact ⟨hs.2, hsentnew _ hsents, hchunks⟩
    · by_cases hsd : 0 < overlap ∧ 1 < st.currentSentences.length
      · simp only [if_pos hsd]
        exact ⟨hifedge _ (joinSp_edged _ hwbgood), hsentnew _ hwbgood, hchunks⟩
      · simp only [if_neg hsd]
        exact ⟨by simpa using hs.2,
               by intro x hx; simp at hx; subst hx; exact hs, hchunks⟩
  · simp only [slidingStep, if_neg hc]
    split
    · exact ⟨edged_append_space hcur hs.2 hc hs.1, hsentnew _ hsents, hchunks⟩
    · have hchunks' : ∀ c ∈ st.chunks ++
          [mkSWChunk st.chunkIndex st.current st.currentSentences.length],
          GoodChunk c := by
        intro c hcm
        rcases List.mem_append.mp hcm with h | h
        · exact hchunks c h
        · simp at h; subst h; exact mkSWChunk_good _ _ hcur hc
      by_cases hsd : 0 < overlap ∧ 1 < st.currentSentences.length
      · simp only [if_pos hsd]
        exact ⟨hifedge _ (joinSp_edged _ hwbgood), hsentnew _ hwbgood, hchunks'⟩
      · simp only [if_neg hsd]
        exact ⟨by simpa using hs.2,
               by intro x hx; simp at hx; subst hx; exact hs, hchunks'⟩

theorem foldl_sw_inv (size overlap : Nat) :
    ∀ (L : List (List Char)) (st : SWState), SWInv st →
      (∀ s ∈ L, s ≠ [] ∧ Edged s) →
      SWInv (L.foldl (slidingStep size overlap) st)
  | [], _, hst, _ => hst
  | s :: L, st, hst, hL => by
    rw [List.foldl_cons]
    exact foldl_sw_inv size overlap L _ (slidingStep_inv (hL s (by simp)) hst)
      (fun x hx => hL x (by simp [hx]))

theorem paraStep_inv {size : Nat} {st : ParaState} {p : List Char}
    (hp : p ≠ [] ∧ Edged p) (hinv : ParaInv st) : ParaInv (paraStep size st p) := by
  obtain ⟨hcur, hchunks⟩ := hinv
  by_cases hc : st.current = []
  · simp only [paraStep, if_pos hc]
    split
    · exact ⟨hp.2, hchunks⟩
    · exact ⟨hp.2, hchunks⟩
  · simp only [paraStep, if_neg hc]
    split
    · exact ⟨edged_append_nn hcur hp.2 hc hp.1, hchunks⟩
    · refine ⟨hp.2, ?_⟩
      intro c hcm
      rcases List.mem_append.mp hcm with h | h
      · exact hchunks c h
      · simp at h; subst h
        exact mkParaChunk_good _ hcur hc

theorem foldl_para_inv (size : Nat) :
    ∀ (L : List (List Char)) (st : ParaState), ParaInv st →
      (∀ p ∈ L, p ≠ [] ∧ Edged p) →
      ParaInv (L.foldl (paraStep size) st)
  | [], _, hst, _ => hst
  | p :: L, st, hst, hL => by
    rw [List.foldl_cons]
    exact foldl_para_inv size L _ (paraStep_inv (hL p (by simp)) hst)
      (fun x hx => hL x (by simp [hx]))

theorem sentences_good (l : List Char) :
    ∀ s ∈ split_text_by_sentences l, s ≠ [] ∧ Edged s := by
  intro s hs
  unfold split_text_by_sentences at hs
  rw [List.mem_filter] at hs
  obtain ⟨hmem, hne⟩ := hs
  obtain ⟨p, -, rfl⟩ := List.mem_map.mp hmem
  exact ⟨by simpa using hne, pyStrip_edged p⟩

theorem paragraphs_good (l : List Char) :
    ∀ p ∈ paragraphsOf l, p ≠ [] ∧ Edged p := by
  intro s hs
  unfold paragraphsOf at hs
  rw [List.mem_filter] at hs
  obtain ⟨hmem, hne⟩ := hs
  obtain ⟨p, -, rfl⟩ := List.mem_map.mp hmem
  exact ⟨by simpa using hne, pyStrip_edged p⟩

/-! ## Claim C10 -/

/-- C10: every chunk emitted by either chunking strategy has non-empty
content, a `character_count` equal to the length of its content string, and
a `word_count` equal to the number of whitespace-separated words in that
content. -/
theorem c10_chunk_field_integrity (size overlap : Nat) (text : List Char) :
    (∀ c ∈ create_chunks_sliding_window size overlap text, GoodChunk c) ∧
    (∀ c ∈ create_chunks_paragraph_based size text, GoodChunk c) := by
  constructor
  · intro c hc
    simp only [create_chunks_sliding_window] at hc
    by_cases hsent : split_text_by_sentences text = []
    · rw [if_pos hsent] at hc; cases hc
    · rw [if_neg hsent] at hc
      have hinit : SWInv ⟨[], [], [], 0⟩ :=
        ⟨⟨rfl, rfl⟩, fun x hx => absurd hx (List.not_mem_nil x),
         fun x hx => absurd hx (List.not_mem_nil x)⟩
      have hinv := foldl_sw_inv size overlap (split_text_by_sentences text)
        ⟨[], [], [], 0⟩ hinit (sentences_good text)
      rcases List.mem_append.mp hc with h | h
      · exact hinv.2.2 c h
      · by_cases hcur :
          (List.foldl (slidingStep size overlap) ⟨[], [], [], 0⟩
            (split_text_by_sentences text)).current = []
        · rw [if_pos hcur] at h; cases h
        · rw [if_neg hcur] at h
          simp at h; subst h
          exact mkSWChunk_good _ _ hinv.1 hcur
  · intro c hc
    simp only [create_chunks_paragraph_based] at hc
    have hinit : ParaInv ⟨[], [], 0⟩ :=
      ⟨⟨rfl, rfl⟩, fun x hx => absurd hx (List.not_mem_nil x)⟩
    have hinv := foldl_para_inv size (paragraphsOf text) ⟨[], [], 0⟩ hinit
      (paragraphs_good text)
    rcases List.mem_append.mp hc with h | h
    · exact hinv.2 c h
    · by_cases hcur :
        (List.foldl (paraStep size) ⟨[], [], 0⟩ (paragraphsOf text)).current = []
      · rw [if_pos hcur] at h; cases h
      · rw [if_neg hcur] at h
        simp at h; subst h
        exact mkParaChunk_good _ hinv.1 hcur

/-- C10 witness: the theorem evaluated on concrete texts and chunks. -/
theorem c10_chunk_field_integrity_witness :
    (⟨0, "One. Two.".data, 9, 2, 2⟩ : PyChunk) ∈
        create_chunks_sliding_window 10 0 "One. Two.".data ∧
    GoodChunk ⟨0, "One. Two.".data, 9, 2, 2⟩ ∧
    (⟨0, "para one".data, 8, 2, 1⟩ : PyChunk) ∈
        create_chunks_paragraph_based 20 "para one".data ∧
    GoodChunk ⟨0, "para one".data, 8, 2, 1⟩ :=
  ⟨by decide,
   (c10_chunk_field_integrity 10 0 "One. Two.".data).1 _ (by decide),
   by decide,
   (c10_chunk_field_integrity 20 0 "para one".data).2 _ (by decide)⟩

/-! ## Claim C3 -/

/-- C3 (code bug): `clean_text` does *not* strip `--- Page N ---` markers.
The whitespace collapse runs first and removes every newline, after which
the marker-removal regex `\n--- Page \d+ ---\n` can never match, so the
markers survive into the cleaned text (they would be stripped if the regex
ran on the raw marker-bearing text, as the last conjunct shows). -/
theorem c3_page_markers_survive_cleaning :
    clean_text "\n--- Page 1 ---\nHello   world.\n--- Page 2 ---\nBye.".data =
      "--- Page 1 --- Hello world. --- Page 2 --- Bye.".data ∧
    containsSeq "--- Page 1 ---".data
      (clean_text "\n--- Page 1 ---\nHello   world.\n--- Page 2 ---\nBye.".data) = true ∧
    removePageMarkers "\n--- Page 1 ---\nHello".data = "\nHello".data := by
  refine ⟨by decide, by decide, by decide⟩

/-! ## Claim C5 -/

/-- C5 (code bug): reprocessing a document whose chunk rows already exist
inserts a second row with the same `(document_id, chunk_index)` pair, because
`cleanup_document_data` deletes only the vector-index entries and no cascade
deletes the relational chunk rows.  Uniqueness of `(document_id,
chunk_index)` is violated after `reprocess_document` (on a store with the
unique constraint enforced, the chunking commit would fail instead). -/
theorem c5_reprocess_duplicates_chunk_index :
    ((reprocess_document smallTextEnv 1000 200 1 reproSt).2.rows.map
        fun r => (r.docId, r.chunkIndex)) = [(1, 0), (1, 0)] ∧
    ¬ ((reprocess_document smallTextEnv 1000 200 1 reproSt).2.rows.map
        fun r => (r.docId, r.chunkIndex)).Nodup := by
  refine ⟨by decide, by decide⟩

/-! ## Claim C6 -/

/-- C6 counterexample: when the just-emitted chunk consists of a single
sentence, the code skips overlap seeding entirely (`len(current_chunk_sentences) > 1`
fails), even though the walk-backward suffix is non-empty and within budget.
With `chunk_size = 10`, `chunk_overlap = 8` and text `"abcd. efghijk."`, the
second chunk is exactly the overflowing sentence, not the seeded content the
claim prescribes. -/
theorem c6_single_sentence_no_seed_counterexample :
    (create_chunks_sliding_window 10 8 "abcd. efghijk.".data).map PyChunk.content =
      ["abcd.".data, "efghijk.".data] ∧
    walkBack ["abcd.".data] 8 = ["abcd.".data] ∧
    sumLen (walkBack ["abcd.".data] 8) ≤ 8 ∧
    "efghijk.".data ≠ joinSp (walkBack ["abcd.".data] 8) ++ ' ' :: "efghijk.".data := by
  refine ⟨by decide, by decide, by decide, by decide⟩

/-- C6 amended: in sliding-window chunking with `chunk_overlap > 0`, whenever
a sentence overflows the current chunk **and the just-emitted chunk contains
more than one sentence**, the new chunk is seeded with a suffix of the
just-emitted chunk's sentences whose total character length is at most
`chunk_overlap` (built by walking sentences backward until adding one more
would exceed the budget), and the overflowing sentence is always appended to
that seeded chunk (unconditionally, hence even if the result exceeds
`chunk_size`).  When the emitted chunk has a single sentence, no seeding
occurs. -/
theorem c6_overlap_seed_amended (size overlap : Nat) (st : SWState) (s : List Char)
    (hcur : st.current ≠ [])
    (hover : ¬ (st.current ++ ' ' :: s).length ≤ size)
    (ho : 0 < overlap) (hn : 1 < st.currentSentences.length) :
    (slidingStep size overlap st s).chunks =
      st.chunks ++ [mkSWChunk st.chunkIndex st.current st.currentSentences.length] ∧
    ∃ seed, (∃ t, t ++ seed = st.currentSentences) ∧ sumLen seed ≤ overlap ∧
      (slidingStep size overlap st s).currentSentences = seed ++ [s] ∧
      (slidingStep size overlap st s).current =
        (if joinSp seed = [] then s else joinSp seed ++ ' ' :: s) := by
  have hcond : 0 < overlap ∧ 1 < st.currentSentences.length := ⟨ho, hn⟩
  simp only [slidingStep, if_neg hcur, if_pos hcond]
  rw [if_neg hover]
  exact ⟨rfl, walkBack st.currentSentences overlap,
    walkBack_suffix _ _, walkBack_sum _ _, rfl, rfl⟩

/-- C6 amended witness: the amended theorem applied to a concrete overflow
state with a two-sentence emitted chunk. -/
theorem c6_overlap_seed_amended_witness :
    (("ab. cd.".data : List Char) ≠ [] ∧
      ¬ ("ab. cd.".data ++ ' ' :: "efghij.".data).length ≤ 8 ∧
      0 < 4 ∧ 1 < (["ab.".data, "cd.".data] : List (List Char)).length) ∧
    ((slidingStep 8 4 ⟨[], "ab. cd.".data, ["ab.".data, "cd.".data], 0⟩
        "efghij.".data).chunks =
      [] ++ [mkSWChunk 0 "ab. cd.".data 2] ∧
    ∃ seed, (∃ t, t ++ seed = (["ab.".data, "cd.".data] : List (List Char))) ∧
      sumLen seed ≤ 4 ∧
      (slidingStep 8 4 ⟨[], "ab. cd.".data, ["ab.".data, "cd.".data], 0⟩
          "efghij.".data).currentSentences = seed ++ ["efghij.".data] ∧
      (slidingStep 8 4 ⟨[], "ab. cd.".data, ["ab.".data, "cd.".data], 0⟩
          "efghij.".data).current =
        (if joinSp seed = [] then "efghij.".data
         else joinSp seed ++ ' ' :: "efghij.".data)) :=
  ⟨⟨by decide, by decide, by decide, by decide⟩,
   c6_overlap_seed_amended 8 4 ⟨[], "ab. cd.".data, ["ab.".data, "cd.".data], 0⟩
     "efghij.".data (by decide) (by decide) (by decide) (by decide)⟩

/-! ## Lemmas about the embedding stage -/

theorem genPhase_fail {eenv : EmbedEnv} (total : Nat) :
    ∀ {L : List Nat} {i : Nat}, i ∈ L → eenv.batchErr i ≠ none →
      (genPhase eenv total L).1 ≠ none := by
  intro L
  induction L with
  | nil => intro i h; cases h
  | cons j rest ih =>
    intro i hi hne
    simp only [genPhase]
    cases hj : eenv.batchErr j with
    | some e => simp
    | none =>
      simp only []
      rcases List.mem_cons.mp hi with h | hmem
      · exact absurd (h ▸ hj) hne
      · exact ih hmem hne

theorem genPhase_ok {eenv : EmbedEnv} {total : Nat}
    (hall : ∀ i, eenv.batchErr i = none) :
    ∀ L : List Nat, genPhase eenv total L = (none, L.map (genProgress total)) := by
  intro L
  induction L with
  | nil => rfl
  | cons j rest ih => simp only [genPhase, hall j, ih, List.map_cons]

theorem storePhase_ok {eenv : EmbedEnv} (total : Nat)
    (hall : ∀ i, eenv.storeErr i = none) :
    ∀ (L : List Row) (i0 : Nat) (st : St),
      (storePhase eenv total L i0 st).1 = none ∧
      (storePhase eenv total L i0 st).2.1 =
        (List.range' i0 L.length).map (storeProgress total)
  | [], _, _ => ⟨rfl, rfl⟩
  | r :: rest, i0, st => by
    simp only [storePhase, hall i0]
    obtain ⟨h1, h2⟩ := storePhase_ok total hall rest (i0 + 1)
      { st with
        vec := st.vec ++ [⟨r.docId, r.id⟩],
        rows := st.rows.map fun x =>
          if x.id = r.id then { x with embeddingId := some r.id } else x }
    refine ⟨h1, ?_⟩
    rw [h2]
    rfl

theorem storePhase_fail {eenv : EmbedEnv} (total : Nat) :
    ∀ (L : List Row) (i0 : Nat) (st : St),
      (∃ j, j < L.length ∧ eenv.storeErr (i0 + j) ≠ none) →
      (storePhase eenv total L i0 st).1 ≠ none := by
  intro L
  induction L with
  | nil =>
    intro i0 st h
    obtain ⟨j, hj, -⟩ := h
    exact absurd hj (by simp)
  | cons r rest ih =>
    intro i0 st h
    simp only [storePhase]
    cases h0 : eenv.storeErr i0 with
    | some e => simp
    | none =>
      simp only []
      obtain ⟨j, hj, hne⟩ := h
      cases j with
      | zero => exact absurd h0 (by simpa using hne)
      | succ k =>
        refine ih _ _ ⟨k, by simpa using hj, ?_⟩
        rw [show i0 + 1 + k = i0 + (k + 1) from by omega]
        exact hne

/-! ## Claim C2 -/

/-- C2: a failure in any embedding batch aborts the whole embedding stage
without partial commit — the chunk rows and the vector index are exactly as
before the run (no `embedding_id` is set, no vector entry added), the
`create_embeddings` job is marked `failed`, the document is marked
`embedding_failed`, and the stage reports failure. -/
theorem c2_batch_failure_aborts_cleanly (eenv : EmbedEnv) (docId : Nat) (st : St)
    (h : ∃ i ∈ batchStarts (sortRows (st.rows.filter (·.docId = docId))).length,
      eenv.batchErr i ≠ none) :
    (process_document_embeddings eenv docId st).1 = false ∧
    (process_document_embeddings eenv docId st).2.1.status = "failed" ∧
    (process_document_embeddings eenv docId st).2.2.docStatus = "embedding_failed" ∧
    (process_document_embeddings eenv docId st).2.2.rows = st.rows ∧
    (process_document_embeddings eenv docId st).2.2.vec = st.vec := by
  obtain ⟨i, hi, hne⟩ := h
  have hchunks : sortRows (st.rows.filter (·.docId = docId)) ≠ [] := by
    intro hx
    rw [hx] at hi
    simp [batchStarts] at hi
  have hfail := genPhase_fail
    (sortRows (st.rows.filter (·.docId = docId))).length hi hne
  simp only [process_document_embeddings]
  rw [if_neg hchunks]
  cases hg : (genPhase eenv (sortRows (st.rows.filter (·.docId = docId))).length
      (batchStarts (sortRows (st.rows.filter (·.docId = docId))).length)).1 with
  | none => exact absurd hg hfail
  | some e => exact ⟨rfl, rfl, rfl, rfl, rfl⟩

/-- C2 witness: the theorem at a concrete five-chunk store whose (single)
embedding batch fails. -/
theorem c2_batch_failure_aborts_cleanly_witness :
    (∃ i ∈ batchStarts (sortRows (fiveChunkSt.rows.filter (·.docId = 1))).length,
      failingBatchEnv.batchErr i ≠ none) ∧
    ((process_document_embeddings failingBatchEnv 1 fiveChunkSt).1 = false ∧
     (process_document_embeddings failingBatchEnv 1 fiveChunkSt).2.1.status = "failed" ∧
     (process_document_embeddings failingBatchEnv 1 fiveChunkSt).2.2.docStatus =
       "embedding_failed" ∧
     (process_document_embeddings failingBatchEnv 1 fiveChunkSt).2.2.rows =
       fiveChunkSt.rows ∧
     (process_document_embeddings failingBatchEnv 1 fiveChunkSt).2.2.vec =
       fiveChunkSt.vec) :=
  ⟨⟨0, by decide, by decide⟩,
   c2_batch_failure_aborts_cleanly failingBatchEnv 1 fiveChunkSt
     ⟨0, by decide, by decide⟩⟩

/-! ## Claim C9 -/

/-- C9 counterexample: with 5 chunks (a partial final batch, batch size
being 10) and every provider call succeeding, the progress committed during
the batch embedding-generation phase is `min(100, int(10/5*50)) = 100`,
which exceeds 50 — the generation phase does not stay within the first half
of the progress budget. -/
theorem c9_generation_progress_counterexample :
    (process_document_embeddings okEmbedEnv 1 fiveChunkSt).2.1.progressTrace =
      [100, 60, 70, 80, 90, 100, 100] ∧
    (process_document_embeddings okEmbedEnv 1 fiveChunkSt).2.1.progressTrace.head? =
      some (genProgress 5 0) ∧
    genProgress 5 0 = 100 ∧
    ¬ genProgress 5 0 ≤ 50 := by
  exact ⟨by decide, by decide, by decide, by decide⟩

/-- C9 amended: on a successful embedding run, the job's progress trace is
the generation-phase reports followed by the storage-phase reports followed
by the final 100; every storage-phase report lies in the second half
(between 50 and 100), and when the chunk count is a multiple of the batch
size 10 every generation-phase report is at most 50 (for a partial final
batch the generation-phase report `min(100, (i+10)*50/total)` can exceed
50, up to 100). -/
theorem c9_progress_phases_amended (eenv : EmbedEnv) (docId : Nat) (st : St)
    (hb : ∀ i, eenv.batchErr i = none) (hs : ∀ i, eenv.storeErr i = none)
    (hne : sortRows (st.rows.filter (·.docId = docId)) ≠ []) :
    ((process_document_embeddings eenv docId st).2.1.progressTrace =
      (batchStarts (sortRows (st.rows.filter (·.docId = docId))).length).map
        (genProgress (sortRows (st.rows.filter (·.docId = docId))).length) ++
      (List.range (sortRows (st.rows.filter (·.docId = docId))).length).map
        (storeProgress (sortRows (st.rows.filter (·.docId = docId))).length) ++ [100]) ∧
    (∀ p ∈ (List.range (sortRows (st.rows.filter (·.docId = docId))).length).map
        (storeProgress (sortRows (st.rows.filter (·.docId = docId))).length),
      50 ≤ p ∧ p ≤ 100) ∧
    ((sortRows (st.rows.filter (·.docId = docId))).length % 10 = 0 →
      ∀ p ∈ (batchStarts (sortRows (st.rows.filter (·.docId = docId))).length).map
        (genProgress (sortRows (st.rows.filter (·.docId = docId))).length),
      p ≤ 50) := by
  have hn : 0 < (sortRows (st.rows.filter (·.docId = docId))).length :=
    List.length_pos.mpr hne
  refine ⟨?_, ?_, ?_⟩
  · simp only [process_document_embeddings]
    rw [if_neg hne, genPhase_ok hb]
    obtain ⟨h1, h2⟩ := storePhase_ok
      (sortRows (st.rows.filter (·.docId = docId))).length hs
      (sortRows (st.rows.filter (·.docId = docId))) 0 st
    rw [h1, h2]
    simp [List.range_eq_range']
  · intro p hp
    obtain ⟨j, hj, rfl⟩ := List.mem_map.mp hp
    rw [List.mem_range] at hj
    constructor
    · exact Nat.le_add_right 50 _
    · have hmul : (j + 1) * 50 ≤ (sortRows (st.rows.filter (·.docId = docId))).length * 50 :=
        Nat.mul_le_mul_right 50 (by omega)
      have hdiv : (j + 1) * 50 / (sortRows (st.rows.filter (·.docId = docId))).length ≤
          (sortRows (st.rows.filter (·.docId = docId))).length * 50 /
            (sortRows (st.rows.filter (·.docId = docId))).length :=
        Nat.div_le_div_right hmul
      have hcancel : (sortRows (st.rows.filter (·.docId = docId))).length * 50 /
          (sortRows (st.rows.filter (·.docId = docId))).length = 50 :=
        Nat.mul_div_cancel_left 50 hn
      rw [hcancel] at hdiv
      unfold storeProgress
      omega
  · intro hmod p hp
    obtain ⟨i, hi, rfl⟩ := List.mem_map.mp hp
    simp only [batchStarts, List.mem_map, List.mem_range] at hi
    obtain ⟨k, hk, rfl⟩ := hi
    have hle : k * 10 + 10 ≤ (sortRows (st.rows.filter (·.docId = docId))).length := by
      omega
    have hmul : (k * 10 + 10) * 50 ≤
        (sortRows (st.rows.filter (·.docId = docId))).length * 50 :=
      Nat.mul_le_mul_right 50 hle
    have hdiv : (k * 10 + 10) * 50 / (sortRows (st.rows.filter (·.docId = docId))).length ≤
        (sortRows (st.rows.filter (·.docId = docId))).length * 50 /
          (sortRows (st.rows.filter (·.docId = docId))).length :=
      Nat.div_le_div_right hmul
    have hcancel : (sortRows (st.rows.filter (·.docId = docId))).length * 50 /
        (sortRows (st.rows.filter (·.docId = docId))).length = 50 :=
      Nat.mul_div_cancel_left 50 hn
    rw [hcancel] at hdiv
    unfold genProgress
    exact le_trans (Nat.min_le_right _ _) hdiv

/-- C9 amended witness: a successful run over ten chunks (one full batch):
generation reports `[50]`, storage reports `55 … 100`, final `100`. -/
theorem c9_progress_phases_amended_witness :
    ((process_document_embeddings okEmbedEnv 1 tenChunkSt).2.1.progressTrace =
      (batchStarts (sortRows (tenChunkSt.rows.filter (·.docId = 1))).length).map
        (genProgress (sortRows (tenChunkSt.rows.filter (·.docId = 1))).length) ++
      (List.range (sortRows (tenChunkSt.rows.filter (·.docId = 1))).length).map
        (storeProgress (sortRows (tenChunkSt.rows.filter (·.docId = 1))).length) ++ [100]) ∧
    (∀ p ∈ (List.range (sortRows (tenChunkSt.rows.filter (·.docId = 1))).length).map
        (storeProgress (sortRows (tenChunkSt.rows.filter (·.docId = 1))).length),
      50 ≤ p ∧ p ≤ 100) ∧
    ((sortRows (tenChunkSt.rows.filter (·.docId = 1))).length % 10 = 0 →
      ∀ p ∈ (batchStarts (sortRows (tenChunkSt.rows.filter (·.docId = 1))).length).map
        (genProgress (sortRows (tenChunkSt.rows.filter (·.docId = 1))).length),
      p ≤ 50) :=
  c9_progress_phases_amended okEmbedEnv 1 tenChunkSt (fun _ => rfl) (fun _ => rfl)
    (by decide)

/-! ## Claim C1 -/

/-- C1 counterexample: when extraction succeeds with empty text, `process()`
does return `errors = ["No text content extracted"]`, `chunking = False`,
`total_chunks = 0` and never advances to `chunking` — but the document's
processing status is left at `"completed"` (committed by
`PDFService.process_document`'s success path before the orchestrator checks
the text), which is neither an extracting-stage marker nor in the failed
family. -/
theorem c1_empty_text_status_counterexample :
    (process_document_full_pipeline emptyTextEnv 1000 200 1 pendingSt).1 =
      ⟨true, false, false, 0, ["No text content extracted"]⟩ ∧
    (process_document_full_pipeline emptyTextEnv 1000 200 1 pendingSt).2.docStatus =
      "completed" ∧
    (process_document_full_pipeline emptyTextEnv 1000 200 1 pendingSt).2.trace =
      ["extracting", "extracting", "completed"] ∧
    ¬ ((process_document_full_pipeline emptyTextEnv 1000 200 1 pendingSt).2.docStatus =
        "extracting" ∨
       failedFamily
        (process_document_full_pipeline emptyTextEnv 1000 200 1 pendingSt).2.docStatus) := by
  refine ⟨by decide, by decide, by decide, ?_⟩
  unfold failedFamily
  decide

/-- C1 amended: if a document's extraction succeeds with an empty text
string, `process()` returns `errors = ["No text content extracted"]`,
`chunking = False`, `total_chunks = 0`; the run commits exactly the statuses
`extracting`, `extracting`, `completed` (so the document is never advanced
to `chunking`), and the document is left at `"completed"` — the marker set
by the extraction step's own success path — rather than at a
failed/extracting-stage marker. -/
theorem c1_empty_text_amended (env : OrchEnv) (size overlap docId : Nat) (st : St)
    (pc : Nat) (md : List (String × String))
    (hex : env.extract = .ok ([], pc, md)) :
    (process_document_full_pipeline env size overlap docId st).1 =
      ⟨true, false, false, 0, ["No text content extracted"]⟩ ∧
    (process_document_full_pipeline env size overlap docId st).2.docStatus =
      "completed" ∧
    (process_document_full_pipeline env size overlap docId st).2.trace =
      st.trace ++ ["extracting", "extracting", "completed"] ∧
    "chunking" ∉ (["extracting", "extracting", "completed"] : List String) := by
  refine ⟨?_, ?_, ?_, by decide⟩ <;>
    simp [process_document_full_pipeline, pdf_process_document, get_document_text,
      setStatus, hex]

/-- C1 amended witness: the amended theorem at the concrete empty-text
environment. -/
theorem c1_empty_text_amended_witness :
    emptyTextEnv.extract = .ok ([], 0, []) ∧
    ((process_document_full_pipeline emptyTextEnv 1000 200 1 pendingSt).1 =
      ⟨true, false, false, 0, ["No text content extracted"]⟩ ∧
     (process_document_full_pipeline emptyTextEnv 1000 200 1 pendingSt).2.docStatus =
       "completed" ∧
     (process_document_full_pipeline emptyTextEnv 1000 200 1 pendingSt).2.trace =
       pendingSt.trace ++ ["extracting", "extracting", "completed"] ∧
     "chunking" ∉ (["extracting", "extracting", "completed"] : List String)) :=
  ⟨rfl, c1_empty_text_amended emptyTextEnv 1000 200 1 pendingSt 0 [] rfl⟩

/-! ## Claim C4 -/

theorem embedFails_result (eenv : EmbedEnv) (docId : Nat) (st : St)
    (h : EmbedFailsAt eenv docId st.rows) :
    (process_document_embeddings eenv docId st).1 = false ∧
    (process_document_embeddings eenv docId st).2.2.docStatus = "embedding_failed" := by
  rcases h with hempty | ⟨i, hi, hne⟩ | ⟨j, hj, hne⟩
  · simp only [process_document_embeddings]
    rw [if_pos hempty]
    exact ⟨rfl, rfl⟩
  · have hchunks : sortRows (st.rows.filter (·.docId = docId)) ≠ [] := by
      intro hx
      rw [hx] at hi
      simp [batchStarts] at hi
    have hfail := genPhase_fail
      (sortRows (st.rows.filter (·.docId = docId))).length hi hne
    simp only [process_document_embeddings]
    rw [if_neg hchunks]
    cases hg : (genPhase eenv (sortRows (st.rows.filter (·.docId = docId))).length
        (batchStarts (sortRows (st.rows.filter (·.docId = docId))).length)).1 with
    | none => exact absurd hg hfail
    | some e => exact ⟨rfl, rfl⟩
  · have hchunks : sortRows (st.rows.filter (·.docId = docId)) ≠ [] := by
      intro hx
      rw [hx] at hj
      simp at hj
    simp only [process_document_embeddings]
    rw [if_neg hchunks]
    cases hg : (genPhase eenv (sortRows (st.rows.filter (·.docId = docId))).length
        (batchStarts (sortRows (st.rows.filter (·.docId = docId))).length)).1 with
    | some e => exact ⟨rfl, rfl⟩
    | none =>
      have hsf := storePhase_fail
        (sortRows (st.rows.filter (·.docId = docId))).length
        (sortRows (st.rows.filter (·.docId = docId))) 0 st
        ⟨j, hj, by simpa using hne⟩
      cases hss : (storePhase eenv (sortRows (st.rows.filter (·.docId = docId))).length
          (sortRows (st.rows.filter (·.docId = docId))) 0 st).1 with
      | none => exact absurd hss hsf
      | some e => exact ⟨rfl, rfl⟩

/-- C4: for every exception raised inside the extraction, chunking, or
embedding stages, `process()` never raises — it is a total function whose
result records a non-empty `errors` list, and the document is left in a
failed-family status (`failed`, `chunking_failed`, or `embedding_failed`). -/
theorem c4_process_never_raises (env : OrchEnv) (size overlap docId : Nat) (st : St)
    (h : StageRaises env size overlap docId st) :
    (process_document_full_pipeline env size overlap docId st).1.errors ≠ [] ∧
    failedFamily (process_document_full_pipeline env size overlap docId st).2.docStatus := by
  rcases h with ⟨e, hex⟩ | ⟨hm1, hm2, t, pc, md, hex, ht⟩ |
    ⟨t, pc, md, cd, hex, ht, hcd, hcdne, hef⟩
  · refine ⟨?_, ?_⟩ <;>
      simp [process_document_full_pipeline, pdf_process_document, get_document_text,
        setStatus, hex, failedFamily]
  · have hcde : chunksDataFor size overlap env.method (clean_text t) =
        .error ("Unknown chunking method: " ++ env.method) := by
      simp [chunksDataFor, hm1, hm2]
    refine ⟨?_, ?_⟩ <;>
      simp [process_document_full_pipeline, pdf_process_document, get_document_text,
        create_document_chunks, setStatus, hex, ht, hcde, failedFamily]
  · have key : ∀ S : St, S.rows = st.rows ++ rowsFor docId st.nextId cd →
        (process_document_embeddings env.embed docId S).1 = false ∧
        (process_document_embeddings env.embed docId S).2.2.docStatus =
          "embedding_failed" := by
      intro S hS
      refine embedFails_result env.embed docId S ?_
      rw [hS]
      exact hef
    have hkey := key
      ⟨"embedding",
       st.trace ++ ["extracting", "extracting", "completed", "chunking",
         "chunking_completed", "embedding"],
       st.rows ++ rowsFor docId st.nextId cd, st.vec, st.nextId + cd.length⟩ rfl
    refine ⟨?_, ?_⟩
    · simp [process_document_full_pipeline, pdf_process_document, get_document_text,
        create_document_chunks, setStatus, hex, ht, hcd, hcdne]
      split
      · simp
      · next hn =>
        have := hkey.1
        simp_all
    · simp [process_document_full_pipeline, pdf_process_document, get_document_text,
        create_document_chunks, setStatus, hex, ht, hcd, hcdne]
      split
      · exact Or.inr (Or.inr hkey.2)
      · next hn =>
        have := hkey.1
        simp_all

/-- C4 witness: the theorem at a concrete environment whose extraction
raises. -/
theorem c4_process_never_raises_witness :
    StageRaises extractFailEnv 1000 200 1 pendingSt ∧
    ((process_document_full_pipeline extractFailEnv 1000 200 1 pendingSt).1.errors ≠ [] ∧
     failedFamily
       (process_document_full_pipeline extractFailEnv 1000 200 1 pendingSt).2.docStatus) :=
  ⟨Or.inl ⟨"corrupt pdf", rfl⟩,
   c4_process_never_raises extractFailEnv 1000 200 1 pendingSt
     (Or.inl ⟨"corrupt pdf", rfl⟩)⟩

/-! ## Lemmas about the answering engine -/

theorem ragSimilarityThreshold_eq : ragSimilarityThreshold = 3 / 5 := by
  unfold ragSimilarityThreshold
  rw [Rat.mk'_eq_divInt]
  norm_num [Rat.divInt_eq_div]

theorem collectHits_threshold {rows : List Row} {docs : List DocRec} {t : Rat} :
    ∀ {hits : List SearchHit} {x : Retrieved},
      x ∈ collectHits rows docs t hits → t ≤ x.similarity := by
  intro hits
  induction hits with
  | nil => intro x hx; cases hx
  | cons h hs ih =>
    intro x hx
    simp only [collectHits] at hx
    split at hx
    · next hth =>
      split at hx
      · next c heq =>
        rcases List.mem_cons.mp hx with rfl | hmem
        · exact hth
        · exact ih hmem
      · exact ih hx
    · exact ih hx

theorem sortDescBySim_mem {l : List Retrieved} {x : Retrieved} :
    x ∈ sortDescBySim l ↔ x ∈ l :=
  (List.perm_insertionSort _ l).mem_iff

theorem sortDescBySim_sorted (l : List Retrieved) :
    List.Pairwise (fun a b : Retrieved => b.similarity ≤ a.similarity)
      (sortDescBySim l) := by
  haveI h1 : IsTotal Retrieved fun a b => b.similarity ≤ a.similarity :=
    ⟨fun a b => le_total _ _⟩
  haveI h2 : IsTrans Retrieved fun a b => b.similarity ≤ a.similarity :=
    ⟨fun _ _ _ hab hbc => le_trans hbc hab⟩
  exact List.sorted_insertionSort _ l

theorem search_similar_chunks_threshold {rows : List Row} {docs : List DocRec}
    {hits : List SearchHit} {limit : Nat} {t : Rat} {x : Retrieved}
    (hx : x ∈ search_similar_chunks rows docs hits limit t) : t ≤ x.similarity := by
  unfold search_similar_chunks at hx
  exact collectHits_threshold (sortDescBySim_mem.mp (List.take_subset _ _ hx))

theorem search_similar_chunks_capped (rows : List Row) (docs : List DocRec)
    (hits : List SearchHit) (limit : Nat) (t : Rat) :
    (search_similar_chunks rows docs hits limit t).length ≤ limit :=
  List.length_take_le _ _

theorem search_similar_chunks_sorted (rows : List Row) (docs : List DocRec)
    (hits : List SearchHit) (limit : Nat) (t : Rat) :
    List.Pairwise (fun a b : Retrieved => b.similarity ≤ a.similarity)
      (search_similar_chunks rows docs hits limit t) :=
  (sortDescBySim_sorted _).sublist (List.take_sublist _ _)

theorem sourceOf_similarity (r : Retrieved) :
    (sourceOf r).similarity = r.similarity := by
  cases hd : r.document <;> simp [sourceOf, hd]

theorem mkSources_ok : ∀ {l : List Retrieved} {s : List SourceItem},
    mkSources l = .ok s → s = l.map sourceOf := by
  intro l
  induction l with
  | nil =>
    intro s h
    injection h with h1
    subst h1
    rfl
  | cons r rs ih =>
    intro s h
    simp only [mkSources] at h
    split at h
    · cases h
    · next d hd =>
      split at h
      · cases h
      · next s' hs' =>
        injection h with h1
        subst h1
        simp [sourceOf, hd, ih hs']

/-! ## Claim C7 -/

/-- C7: whenever `answer_question` returns, every returned source has
similarity at least the configured threshold 0.6, and the sources are capped
to the top 5, sorted in descending order of similarity. -/
theorem c7_sources_thresholded_sorted_capped (rows : List Row) (docs : List DocRec)
    (env : RagEnv) (question defaultModel : String) (msgs : List Msg)
    (out : RagResult × List Msg × Nat)
    (h : answer_question rows docs env question defaultModel msgs = .ok out) :
    (∀ s ∈ out.1.sources, (3 / 5 : Rat) ≤ s.similarity) ∧
    out.1.sources.length ≤ 5 ∧
    List.Pairwise (fun a b : SourceItem => b.similarity ≤ a.similarity)
      out.1.sources := by
  rw [← ragSimilarityThreshold_eq]
  unfold answer_question at h
  by_cases hrel : search_similar_chunks rows docs env.hits 5 ragSimilarityThreshold = []
  · rw [if_pos hrel] at h
    injection h with h1
    subst h1
    exact ⟨by simp, by simp, by simp⟩
  · rw [if_neg hrel] at h
    cases hmk : mkSources
        (search_similar_chunks rows docs env.hits 5 ragSimilarityThreshold) with
    | error e => rw [hmk] at h; cases h
    | ok src =>
      rw [hmk] at h
      cases hg : env.gen with
      | error e => rw [hg] at h; cases h
      | ok g =>
        rw [hg] at h
        injection h with h1
        subst h1
        have hsrc := mkSources_ok hmk
        refine ⟨?_, ?_, ?_⟩
        · intro s hs
          rw [hsrc] at hs
          obtain ⟨r, hr, rfl⟩ := List.mem_map.mp hs
          rw [sourceOf_similarity]
          exact search_similar_chunks_threshold hr
        · rw [hsrc, List.length_map]
          exact search_similar_chunks_capped rows docs env.hits 5 _
        · rw [hsrc]
          refine List.Pairwise.map _ ?_
            (search_similar_chunks_sorted rows docs env.hits 5 _)
          intro a b hab
          rw [sourceOf_similarity, sourceOf_similarity]
          exact hab

/-- C7 witness: the theorem at a concrete run with one hit below the
threshold (filtered out) and two hits above (returned in descending order of
similarity). -/
theorem c7_sources_thresholded_sorted_capped_witness :
    answer_question ragRows ragDocs ragEnvHit "q" "gpt-4o-mini" [] = .ok ragHitOut ∧
    ((∀ s ∈ ragHitOut.1.sources, (3 / 5 : Rat) ≤ s.similarity) ∧
     ragHitOut.1.sources.length ≤ 5 ∧
     List.Pairwise (fun a b : SourceItem => b.similarity ≤ a.similarity)
       ragHitOut.1.sources) :=
  ⟨by rfl,
   c7_sources_thresholded_sorted_capped ragRows ragDocs ragEnvHit "q" "gpt-4o-mini"
     [] ragHitOut (by rfl)⟩

/-! ## Claim C8 -/

/-- C8: when no retrieved chunk passes the similarity threshold,
`answer_question` returns the canned not-found answer with empty sources,
`token_usage = None`, `response_time_ms = 0`, makes no generation-model call
(the call counter is 0), and still persists a user message plus an assistant
message carrying the canned text. -/
theorem c8_no_hits_canned_answer (rows : List Row) (docs : List DocRec) (env : RagEnv)
    (question defaultModel : String) (msgs : List Msg)
    (h : search_similar_chunks rows docs env.hits 5 ragSimilarityThreshold = []) :
    answer_question rows docs env question defaultModel msgs =
      .ok (⟨cannedAnswer, [], none, 0, 0⟩,
        msgs ++ [⟨"user", question, [], none, none, 0⟩,
          ⟨"assistant", cannedAnswer, [], none, none, 0⟩], 0) := by
  unfold answer_question
  rw [if_pos h]

/-- C8 witness: the theorem at concrete hits that all fall below the 0.6
threshold. -/
theorem c8_no_hits_canned_answer_witness :
    search_similar_chunks ragRows ragDocs ragEnvMiss.hits 5 ragSimilarityThreshold = [] ∧
    answer_question ragRows ragDocs ragEnvMiss "q" "gpt-4o-mini" [] =
      .ok (⟨cannedAnswer, [], none, 0, 0⟩,
        [⟨"user", "q", [], none, none, 0⟩,
         ⟨"assistant", cannedAnswer, [], none, none, 0⟩], 0) :=
  ⟨by decide,
   c8_no_hits_canned_answer ragRows ragDocs ragEnvMiss "q" "gpt-4o-mini" []
     (by decide)⟩

end AIKB
